import Mathlib

/- Shallow embedding of src/main.py (Yuzuhiko_AI_News), an RSS news
aggregation script.  Pure data and list processing are translated
directly; external collaborators (the feedparser network fetch, the
HTTP get of article pages, the generative-text API) are modelled as
explicit oracle parameters, and Python exceptions as Except values. -/

/-- A parsed feed entry as produced by feedparser.  Attribute access on
a missing field raises AttributeError in Python, hence Option fields;
published times are modelled as UTC Unix timestamps in seconds. -/
structure Entry where
  title : Option String
  link : Option String
  summary : Option String
  published_parsed : Option Int
deriving DecidableEq

/-- A parsed feed: the feed-level title (feed.feed.get "title") and the
entry list.  feedparser.parse absorbs network and syntax failures; an
unreachable or malformed feed parses to a feed with no entries. -/
structure Feed where
  title : Option String
  entries : List Entry
deriving DecidableEq

/-- The news-record dict built in fetch_news; body is added later by
fetch_article_bodies. -/
structure Record where
  title : String
  link : String
  summary : String
  source : String
  body : Option String
deriving DecidableEq

/-- The retention test of fetch_news (src/main.py lines 50-53):
getattr(entry, "published_parsed", None) is truthy iff present, and the
entry is kept iff its UTC time is strictly later than now minus one day
(86400 seconds). -/
def keepEntry (now : Int) (e : Entry) : Bool :=
  match e.published_parsed with
  | some t => decide (now - 86400 < t)
  | none => false

/-- Building one news dict (lines 54-59): entry.title and entry.link
raise AttributeError when the field is missing, while entry.get
"summary" "" and feed.feed.get "title" "Unknown Source" are total. -/
def entryRecord (f : Feed) (e : Entry) : Except String Record :=
  match e.title, e.link with
  | some t, some l =>
      Except.ok { title := t, link := l, summary := e.summary.getD "",
                  source := f.title.getD "Unknown Source", body := none }
  | none, _ => Except.error "AttributeError: object has no attribute title"
  | some _, none => Except.error "AttributeError: object has no attribute link"

/-- Total description of the record built for an entry whose title and
link attributes are present. -/
def recordOf (f : Feed) (e : Entry) : Record :=
  { title := e.title.getD "", link := e.link.getD "",
    summary := e.summary.getD "",
    source := f.title.getD "Unknown Source", body := none }

/-- Inner loop of fetch_news over one feed's entries (lines 49-59),
accumulating news_list; an AttributeError aborts everything. -/
def collectEntries (now : Int) (f : Feed) (acc : List Record) :
    List Entry → Except String (List Record)
  | [] => Except.ok acc
  | e :: es =>
    if keepEntry now e then
      match entryRecord f e with
      | Except.ok r => collectEntries now f (acc ++ [r]) es
      | Except.error msg => Except.error msg
    else collectEntries now f acc es

/-- Outer loop of fetch_news over RSS_FEEDS (lines 47-59). -/
def collectFeeds (now : Int) (acc : List Record) :
    List Feed → Except String (List Record)
  | [] => Except.ok acc
  | f :: fs =>
    match collectEntries now f acc f.entries with
    | Except.ok acc2 => collectFeeds now acc2 fs
    | Except.error msg => Except.error msg

/-- news_list as accumulated by fetch_news before deduplication. -/
def collectNews (now : Int) (feeds : List Feed) : Except String (List Record) :=
  collectFeeds now [] feeds

/-- One step of the dedup loop (lines 62-67); seen_links as a list. -/
def dedupStep (acc : List Record × List String) (n : Record) :
    List Record × List String :=
  if n.link ∈ acc.2 then acc else (acc.1 ++ [n], n.link :: acc.2)

/-- Deduplication by link, first occurrence wins (lines 61-69). -/
def dedupByLink (l : List Record) : List Record :=
  (l.foldl dedupStep ([], [])).1

/-- Recursion-friendly form of the dedup loop, proved equal below. -/
def dedupGo : List Record → List String → List Record
  | [], _ => []
  | x :: xs, seen =>
    if x.link ∈ seen then dedupGo xs seen
    else x :: dedupGo xs (x.link :: seen)

/-- fetch_news (lines 41-69): accumulate the last-24-hours records over
all feeds, then deduplicate by link. -/
def fetch_news (now : Int) (feeds : List Feed) : Except String (List Record) :=
  match collectNews now feeds with
  | Except.ok nl => Except.ok (dedupByLink nl)
  | Except.error e => Except.error e

/-- The retained records of a feed list, in feed order then entry
order, as a filter/map; used to state the retention property. -/
def recentRecords (now : Int) : List Feed → List Record
  | [] => []
  | f :: fs =>
      (f.entries.filter (keepEntry now)).map (recordOf f) ++ recentRecords now fs

/-- A content element matched by a selector: the stripped texts of its
p/h2/h3/li descendants (one string per sub-element, possibly empty),
and its full get_text. -/
structure Element where
  paragraphs : List String
  fullText : String
deriving DecidableEq

/-- An HTML page after the decompose step: select_one per selector
string, and the stripped texts of all p elements page-wide. -/
structure Page where
  selectOne : String → Option Element
  pageParagraphs : List String

/-- The prioritized selector list (lines 83-92). -/
def selectors : List String :=
  ["article", ".article-body", ".article_body", "#article-body",
   ".entry-content", ".post-content", ".content-main", "main"]

/-- Text extraction from a matched element (lines 98-103): join the
nonempty stripped sub-element texts when sub-elements exist, else the
element's full text. -/
def extractFromElement (el : Element) : String :=
  if el.paragraphs.isEmpty then el.fullText
  else String.intercalate "\n" (el.paragraphs.filter fun p => p ≠ "")

/-- The selector loop with break (lines 95-104): the first selector
whose select_one matches wins. -/
def firstMatch (page : Page) : List String → Option Element
  | [] => none
  | s :: rest =>
    match page.selectOne s with
    | some el => some el
    | none => firstMatch page rest

/-- body_text as left by the selector loop; empty when no selector
matched (or when the matched element's extraction is empty). -/
def selectorBody (page : Page) : String :=
  match firstMatch page selectors with
  | some el => extractFromElement el
  | none => ""

/-- The page-wide fallback (lines 106-109): all p texts longer than 20
characters, joined by newlines. -/
def fallbackBody (page : Page) : String :=
  String.intercalate "\n" (page.pageParagraphs.filter fun p => 20 < p.length)

/-- body_text after the fallback step (line 106: the fallback runs iff
body_text is empty). -/
def rawBody (page : Page) : String :=
  if selectorBody page = "" then fallbackBody page else selectorBody page

/-- The 2000-character truncation (lines 111-113). -/
def truncateBody (s : String) : String :=
  if 2000 < s.length then s.take 2000 ++ "...(以下省略)" else s

/-- The successful-response branch of scrape_article_body
(lines 76-115), ending with the empty-body sentinel. -/
def scrapePage (page : Page) : String :=
  if truncateBody (rawBody page) = "" then "(本文の取得に失敗しました)"
  else truncateBody (rawBody page)

/-- scrape_article_body (lines 71-118): the HTTP get plus parsing is an
oracle returning a page or an exception; every exception is caught and
rendered as the error sentinel. -/
def scrape_article_body (http : String → Except String Page) (url : String) :
    String :=
  match http url with
  | Except.ok page => scrapePage page
  | Except.error e => "(本文の取得中にエラーが発生: " ++ e ++ ")"

/-- fetch_article_bodies (lines 120-126): adds a body to each record,
returning the list itself. -/
def fetch_article_bodies (http : String → Except String Page)
    (news_list : List Record) : List Record :=
  news_list.map fun n => { n with body := some (scrape_article_body http n.link) }

/-- Python truthiness of os.getenv: None and the empty string are falsy. -/
def keyTruthy : Option String → Bool
  | none => false
  | some s => s ≠ ""

/-- One line of the prompt's news listing (line 139). -/
def newsLine (n : Record) : String :=
  "- " ++ n.title ++ " (" ++ n.source ++ "): " ++ n.link

/-- The full Gemini prompt (lines 140-146). -/
def buildPrompt (news_list : List Record) : String :=
  "以下のAI関連のニュース記事リストを、日本語で要約してください。\n読者が手短に内容を把握できるように、重要なニュースを3〜5個に絞って簡潔に記述してください。\n各要約の後に、該当記事のURLを記載してください。\n\nニュースリスト:\n"
    ++ String.intercalate "\n" (news_list.map newsLine) ++ "\n"

/-- summarize_news (lines 128-152); the Gemini call is an oracle and
the Bool of the result records whether it was invoked. -/
def summarize_news (apiKey : Option String)
    (gen : String → Except String String) (news_list : List Record) :
    String × Bool :=
  if news_list.isEmpty then ("本日のAI関連ニュースはありませんでした。", false)
  else if keyTruthy apiKey then
    match gen (buildPrompt news_list) with
    | Except.ok text => (text, true)
    | Except.error e => ("要約中にエラーが発生しました: " ++ e, true)
  else ("エラー: GEMINI_API_KEYが設定されていません。", false)

/-- The LINE-message shaping in main (lines 239-241). -/
def line_summary_of (summary : String) : String :=
  if 4900 < summary.length then summary.take 4900 ++ "..." else summary

/-- The pair of texts main hands to its delivery collaborators
(lines 238-245): the LINE push message and the Docs append text. -/
def main_messages (summary : String) : String × String :=
  (line_summary_of summary, summary)

/-- Demo feed data used by the concrete witnesses below. -/
def demoEntryRecent : Entry :=
  { title := some "T1", link := some "L1", summary := some "S1",
    published_parsed := some 90000 }

/-- A demo entry published before the 24-hour window. -/
def demoEntryOld : Entry :=
  { title := some "T2", link := some "L2", summary := none,
    published_parsed := some 1000 }

/-- A demo entry with no parseable publish time. -/
def demoEntryNoDate : Entry :=
  { title := some "T3", link := some "L3", summary := none,
    published_parsed := none }

/-- A demo feed holding the three demo entries. -/
def demoFeedA : Feed :=
  { title := some "FeedA", entries := [demoEntryRecent, demoEntryOld, demoEntryNoDate] }

/-- A demo feed whose one recent entry duplicates the link L1. -/
def demoFeedB : Feed :=
  { title := none,
    entries := [{ title := some "T4", link := some "L1", summary := none,
                  published_parsed := some 95000 }] }

/-- The demo feed configuration. -/
def demoFeeds : List Feed := [demoFeedA, demoFeedB]

/-- The demo clock: 100000 seconds after the epoch. -/
def demoNow : Int := 100000

/-- The record fetch_news keeps from the demo feeds. -/
def demoRecord : Record :=
  { title := "T1", link := "L1", summary := "S1", source := "FeedA", body := none }

/-- A feed whose single recent entry lacks a title attribute. -/
def badFeed : Feed :=
  { title := some "Bad Feed",
    entries := [{ title := none, link := some "http://bad/1", summary := none,
                  published_parsed := some 90000 }] }

/-- A well-formed feed with one recent entry. -/
def goodFeed : Feed :=
  { title := some "Good Feed",
    entries := [{ title := some "Good", link := some "http://good/1",
                  summary := none, published_parsed := some 90000 }] }

/-- A feed that parsed to zero entries (unreachable or malformed). -/
def emptyFeed : Feed := { title := some "Empty", entries := [] }

/-- A page where nothing matches and there are no paragraphs. -/
def emptyPage : Page := { selectOne := fun _ => none, pageParagraphs := [] }

/-- A page whose article selector matches an element with no text, but
whose page-wide paragraphs carry a long text. -/
def c4pageA : Page :=
  { selectOne := fun s =>
      if s = "article" then some { paragraphs := [], fullText := "" } else none,
    pageParagraphs := ["aaaaaaaaaaaaaaaaaaaaaaaaa"] }

/-- Same matched element as c4pageA but no page-wide paragraphs. -/
def c4pageB : Page :=
  { selectOne := fun s =>
      if s = "article" then some { paragraphs := [], fullText := "" } else none,
    pageParagraphs := [] }

/-- A page whose article selector matches an element with real text. -/
def c4pageC : Page :=
  { selectOne := fun s =>
      if s = "article" then some { paragraphs := ["hello world"], fullText := "" } else none,
    pageParagraphs := ["bbbbbbbbbbbbbbbbbbbbbbbbb"] }

/-- A page reaching the fallback with one long paragraph. -/
def shortPage : Page :=
  { selectOne := fun _ => none, pageParagraphs := ["ccccccccccccccccccccccccc"] }

/-- A summary of 4901 characters, past the LINE ceiling. -/
def bigSummary : String := String.mk (List.replicate 4901 'a')

/-- A string of length zero is the empty string. -/
theorem str_len_zero (s : String) (h : s.length = 0) : s = "" := by
  cases s with
  | mk l => cases l with
    | nil => rfl
    | cons a as => simp [String.length] at h

/-- Appending a nonempty string on the right keeps a string nonempty. -/
theorem str_append_ne_right (a b : String) (h : b ≠ "") : a ++ b ≠ "" := by
  intro hab
  apply h
  have hl := congrArg String.length hab
  rw [String.length_append] at hl
  have h0 : ("" : String).length = 0 := rfl
  rw [h0] at hl
  exact str_len_zero b (by omega)

/-- Appending a nonempty string on the left keeps a string nonempty. -/
theorem str_append_ne_left (a b : String) (h : a ≠ "") : a ++ b ≠ "" := by
  intro hab
  apply h
  have hl := congrArg String.length hab
  rw [String.length_append] at hl
  have h0 : ("" : String).length = 0 := rfl
  rw [h0] at hl
  exact str_len_zero a (by omega)

/-- Truncation never turns a nonempty body into an empty one. -/
theorem truncateBody_ne_empty (s : String) (h : s ≠ "") : truncateBody s ≠ "" := by
  unfold truncateBody
  by_cases hlen : 2000 < s.length
  · rw [if_pos hlen]
    exact str_append_ne_right _ _ (by decide)
  · rw [if_neg hlen]
    exact h

/-- Truncation leaves the empty string empty. -/
theorem truncateBody_empty : truncateBody "" = "" := rfl

/-- The dedup fold computes dedupGo appended after the accumulator. -/
theorem dedup_foldl_go (l : List Record) :
    ∀ acc seen, (l.foldl dedupStep (acc, seen)).1 = acc ++ dedupGo l seen := by
  induction l with
  | nil => intro acc seen; simp [dedupGo]
  | cons x xs ih =>
    intro acc seen
    by_cases h : x.link ∈ seen
    · simp only [List.foldl_cons, dedupStep, h, if_pos, dedupGo, ite_true]
      exact ih acc seen
    · simp only [List.foldl_cons, dedupStep, h, dedupGo, if_neg, ite_false]
      rw [ih (acc ++ [x]) (x.link :: seen)]
      simp
  
/-- dedupByLink is dedupGo started from no records seen. -/
theorem dedupByLink_eq_go (l : List Record) : dedupByLink l = dedupGo l [] := by
  unfold dedupByLink
  rw [dedup_foldl_go l [] []]
  simp

/-- Every record dedupGo emits has a link outside the seen set. -/
theorem dedupGo_link_unseen (l : List Record) :
    ∀ seen y, y ∈ dedupGo l seen → y.link ∉ seen := by
  induction l with
  | nil => intro seen y hy; simp [dedupGo] at hy
  | cons x xs ih =>
    intro seen y hy
    by_cases h : x.link ∈ seen
    · rw [dedupGo, if_pos h] at hy
      exact ih seen y hy
    · rw [dedupGo, if_neg h] at hy
      rcases List.mem_cons.mp hy with hy | hy
      · exact hy ▸ h
      · have hu := ih (x.link :: seen) y hy
        intro hmem
        exact hu (List.mem_cons_of_mem _ hmem)

/-- dedupGo emits pairwise distinct links. -/
theorem dedupGo_pairwise (l : List Record) :
    ∀ seen, (dedupGo l seen).Pairwise (fun a b => a.link ≠ b.link) := by
  induction l with
  | nil => intro seen; simp [dedupGo]
  | cons x xs ih =>
    intro seen
    by_cases h : x.link ∈ seen
    · rw [dedupGo, if_pos h]; exact ih seen
    · rw [dedupGo, if_neg h]
      refine List.Pairwise.cons ?_ (ih (x.link :: seen))
      intro b hb
      have hu := dedupGo_link_unseen xs (x.link :: seen) b hb
      intro hx
      exact hu (hx ▸ List.mem_cons_self _ _)

/-- dedupGo is a sublist of its input: it keeps order and content. -/
theorem dedupGo_sublist (l : List Record) :
    ∀ seen, (dedupGo l seen).Sublist l := by
  induction l with
  | nil => intro seen; simp [dedupGo]
  | cons x xs ih =>
    intro seen
    by_cases h : x.link ∈ seen
    · rw [dedupGo, if_pos h]
      exact (ih seen).cons x
    · rw [dedupGo, if_neg h]
      exact (ih (x.link :: seen)).cons₂ x

/-- Every link of the input that is not already seen survives into the
dedupGo output. -/
theorem dedupGo_link_covered (l : List Record) :
    ∀ seen x, x ∈ l → x.link ∉ seen → ∃ y ∈ dedupGo l seen, y.link = x.link := by
  induction l with
  | nil => intro seen x hx; simp at hx
  | cons a as ih =>
    intro seen x hx hseen
    by_cases h : a.link ∈ seen
    · rw [dedupGo, if_pos h]
      rcases List.mem_cons.mp hx with hx | hx
      · subst hx
        exact absurd h hseen
      · exact ih seen x hx hseen
    · rw [dedupGo, if_neg h]
      rcases List.mem_cons.mp hx with hx | hx
      · exact ⟨a, List.mem_cons_self _ _, by rw [hx]⟩
      · by_cases hl : x.link = a.link
        · exact ⟨a, List.mem_cons_self _ _, hl.symm⟩
        · obtain ⟨y, hy, hylink⟩ := ih (a.link :: seen) x hx (by
            intro hmem
            rcases List.mem_cons.mp hmem with hmem | hmem
            · exact hl hmem
            · exact hseen hmem)
          exact ⟨y, List.mem_cons_of_mem _ hy, hylink⟩

/-- Every record dedupGo keeps is the first occurrence of its link. -/
theorem dedupGo_first_occurrence (l : List Record) :
    ∀ seen y, y ∈ dedupGo l seen →
      ∃ l1 l2, l = l1 ++ y :: l2 ∧ ∀ z ∈ l1, z.link ≠ y.link := by
  induction l with
  | nil => intro seen y hy; simp [dedupGo] at hy
  | cons x xs ih =>
    intro seen y hy
    by_cases h : x.link ∈ seen
    · rw [dedupGo, if_pos h] at hy
      obtain ⟨l1, l2, heq, hne⟩ := ih seen y hy
      refine ⟨x :: l1, l2, by rw [heq]; rfl, ?_⟩
      intro z hz
      rcases List.mem_cons.mp hz with hz | hz
      · subst hz
        have hu := dedupGo_link_unseen xs seen y hy
        intro hxy
        exact hu (hxy ▸ h)
      · exact hne z hz
    · rw [dedupGo, if_neg h] at hy
      rcases List.mem_cons.mp hy with hy | hy
      · subst hy
        exact ⟨[], xs, rfl, by simp⟩
      · obtain ⟨l1, l2, heq, hne⟩ := ih (x.link :: seen) y hy
        refine ⟨x :: l1, l2, by rw [heq]; rfl, ?_⟩
        intro z hz
        rcases List.mem_cons.mp hz with hz | hz
        · have hu := dedupGo_link_unseen xs (x.link :: seen) y hy
          intro hxy
          apply hu
          rw [hz] at hxy
          exact List.mem_cons.mpr (Or.inl hxy.symm)
        · exact hne z hz

/-- When title and link are present, building the record cannot raise
and produces the total description recordOf. -/
theorem entryRecord_ok (f : Feed) (e : Entry)
    (h1 : e.title.isSome) (h2 : e.link.isSome) :
    entryRecord f e = Except.ok (recordOf f e) := by
  rcases e with ⟨t, l, s, p⟩
  cases t with
  | none => simp at h1
  | some tv =>
    cases l with
    | none => simp at h2
    | some lv => rfl

/-- The inner entry loop, when no retained entry is missing title or
link, returns the accumulator extended by the filtered mapped records. -/
theorem collectEntries_ok (now : Int) (f : Feed) (es : List Entry) :
    ∀ acc, (∀ e ∈ es, keepEntry now e = true → e.title.isSome ∧ e.link.isSome) →
      collectEntries now f acc es =
        Except.ok (acc ++ (es.filter (keepEntry now)).map (recordOf f)) := by
  induction es with
  | nil => intro acc h; simp [collectEntries]
  | cons e es ih =>
    intro acc h
    by_cases hk : keepEntry now e = true
    · obtain ⟨h1, h2⟩ := h e (List.mem_cons_self _ _) hk
      rw [collectEntries, if_pos hk, entryRecord_ok f e h1 h2]
      refine Eq.trans
        (ih (acc ++ [recordOf f e])
          (fun x hx hkx => h x (List.mem_cons_of_mem _ hx) hkx)) ?_
      rw [List.filter_cons_of_pos hk, List.map_cons]
      simp
    · rw [collectEntries, if_neg hk]
      rw [ih acc (fun x hx hkx => h x (List.mem_cons_of_mem _ hx) hkx)]
      rw [List.filter_cons_of_neg (by simpa using hk)]

/-- The outer feed loop under the same hypothesis returns the
accumulator extended by recentRecords. -/
theorem collectFeeds_ok (now : Int) (feeds : List Feed) :
    ∀ acc, (∀ f ∈ feeds, ∀ e ∈ f.entries, keepEntry now e = true →
        e.title.isSome ∧ e.link.isSome) →
      collectFeeds now acc feeds = Except.ok (acc ++ recentRecords now feeds) := by
  induction feeds with
  | nil => intro acc h; simp [collectFeeds, recentRecords]
  | cons f fs ih =>
    intro acc h
    rw [collectFeeds,
      collectEntries_ok now f f.entries acc (h f (List.mem_cons_self _ _))]
    refine Eq.trans
      (ih (acc ++ (f.entries.filter (keepEntry now)).map (recordOf f))
        (fun g hg => h g (List.mem_cons_of_mem _ hg))) ?_
    rw [recentRecords]
    simp

/-- news_list, when no retained entry is missing title or link, is
exactly the recentRecords description. -/
theorem collectNews_ok (now : Int) (feeds : List Feed)
    (h : ∀ f ∈ feeds, ∀ e ∈ f.entries, keepEntry now e = true →
        e.title.isSome ∧ e.link.isSome) :
    collectNews now feeds = Except.ok (recentRecords now feeds) := by
  rw [collectNews, collectFeeds_ok now feeds [] h]
  simp

/-- C1: in fetch_news's accumulation over feed entries (src/main.py
lines 41-59, before the link dedup of C2), an entry contributes a
record iff it has a parseable published timestamp that, read as UTC, is
strictly after now minus 24 hours; entries with a missing timestamp are
always excluded, never defaulted to now.  The hypothesis only rules out
the AttributeError abort treated by C8. -/
theorem fetch_news_retention_iff (now : Int) (feeds : List Feed)
    (h : ∀ f ∈ feeds, ∀ e ∈ f.entries, keepEntry now e = true →
        e.title.isSome ∧ e.link.isSome) :
    collectNews now feeds = Except.ok (recentRecords now feeds)
    ∧ (∀ e : Entry, keepEntry now e = true ↔
        ∃ t, e.published_parsed = some t ∧ now - 86400 < t)
    ∧ (∀ e : Entry, e.published_parsed = none → keepEntry now e = false) := by
  refine ⟨collectNews_ok now feeds h, ?_, ?_⟩
  · intro e
    constructor
    · intro hk
      cases hp : e.published_parsed with
      | none => simp [keepEntry, hp] at hk
      | some t =>
        simp only [keepEntry, hp, decide_eq_true_eq] at hk
        exact ⟨t, rfl, hk⟩
    · rintro ⟨t, hp, hlt⟩
      simp only [keepEntry, hp, decide_eq_true_eq]
      exact hlt
  · intro e hp
    simp [keepEntry, hp]

/-- Witness for C1 at the demo configuration. -/
theorem fetch_news_retention_witness :
    (∀ f ∈ demoFeeds, ∀ e ∈ f.entries, keepEntry demoNow e = true →
        e.title.isSome ∧ e.link.isSome)
    ∧ collectNews demoNow demoFeeds
        = Except.ok (recentRecords demoNow demoFeeds) :=
  ⟨by decide, (fetch_news_retention_iff demoNow demoFeeds (by decide)).1⟩

/-- C2: a successful fetch_news output has pairwise distinct links, is
a sublist of the accumulated news_list (so kept records appear in their
first-occurrence order and unchanged), covers every accumulated link,
and keeps precisely first occurrences: each kept record occurs in
news_list with no earlier record sharing its link. -/
theorem fetch_news_link_dedup (now : Int) (feeds : List Feed)
    (out : List Record) (hout : fetch_news now feeds = Except.ok out) :
    out.Pairwise (fun a b => a.link ≠ b.link)
    ∧ ∃ nl, collectNews now feeds = Except.ok nl
        ∧ out.Sublist nl
        ∧ (∀ x ∈ nl, ∃ y ∈ out, y.link = x.link)
        ∧ (∀ y ∈ out, ∃ l1 l2, nl = l1 ++ y :: l2 ∧ ∀ z ∈ l1, z.link ≠ y.link) := by
  rw [fetch_news] at hout
  cases hnl : collectNews now feeds with
  | error e => rw [hnl] at hout; exact absurd hout (by simp)
  | ok nl =>
    rw [hnl] at hout
    have hdd : dedupByLink nl = out := by
      injection hout
    subst hdd
    rw [dedupByLink_eq_go]
    refine ⟨dedupGo_pairwise nl [], nl, rfl, dedupGo_sublist nl [], ?_, ?_⟩
    · intro x hx
      exact dedupGo_link_covered nl [] x hx (by simp)
    · intro y hy
      exact dedupGo_first_occurrence nl [] y hy

/-- Witness for C2 at the demo configuration: the duplicate link L1
from the second feed is dropped, the first occurrence is kept. -/
theorem fetch_news_link_dedup_witness :
    fetch_news demoNow demoFeeds = Except.ok [demoRecord]
    ∧ List.Pairwise (fun a b => a.link ≠ b.link) [demoRecord] :=
  ⟨rfl, (fetch_news_link_dedup demoNow demoFeeds [demoRecord] rfl).1⟩

/-- C8 counterexample: fetch_news can let an exception escape.  A feed
whose single recent entry has no title attribute makes entry.title
raise AttributeError, aborting fetch_news, and the records of the
well-formed feed after it are lost, although that feed alone yields its
record. -/
theorem fetch_news_exception_cex :
    fetch_news demoNow [badFeed, goodFeed]
      = Except.error "AttributeError: object has no attribute title"
    ∧ fetch_news demoNow [goodFeed]
      = Except.ok [{ title := "Good", link := "http://good/1", summary := "",
                     source := "Good Feed", body := none }] :=
  ⟨rfl, rfl⟩

/-- C8 amended: fetch_news returns normally whenever every entry inside
the recency window has title and link attributes (feed retrieval and
parsing themselves are absorbed by feedparser and never raise), and a
feed that parsed to zero entries, as an unreachable or malformed feed
does, contributes nothing and does not disturb the other feeds; but an
in-window entry lacking title or link raises, as the counterexample
shows. -/
theorem fetch_news_isolation_amended (now : Int) (feeds : List Feed) :
    ((∀ f ∈ feeds, ∀ e ∈ f.entries, keepEntry now e = true →
        e.title.isSome ∧ e.link.isSome) →
      fetch_news now feeds = Except.ok (dedupByLink (recentRecords now feeds)))
    ∧ (∀ f : Feed, f.entries = [] →
        fetch_news now (f :: feeds) = fetch_news now feeds) := by
  constructor
  · intro h
    rw [fetch_news, collectNews_ok now feeds h]
  · intro f hf
    have hc : collectNews now (f :: feeds) = collectNews now feeds := by
      rw [collectNews, collectNews, collectFeeds, hf]
      rfl
    rw [fetch_news, fetch_news, hc]

/-- Witness for C8 amended: an empty feed in front of the demo feeds
changes nothing. -/
theorem fetch_news_isolation_witness :
    emptyFeed.entries = []
    ∧ fetch_news demoNow (emptyFeed :: demoFeeds) = fetch_news demoNow demoFeeds :=
  ⟨rfl, (fetch_news_isolation_amended demoNow demoFeeds).2 emptyFeed rfl⟩

/-- C3: scrape_article_body never raises past its boundary and returns
a nonempty string for every URL under any oracle behavior (network
failure, non-200, arbitrary content); and on a page where no selector
matches and no paragraph's trimmed text exceeds 20 characters, it
returns the no-body-found sentinel. -/
theorem scrape_article_body_total (http : String → Except String Page)
    (url : String) :
    scrape_article_body http url ≠ ""
    ∧ (∀ page, http url = Except.ok page →
        firstMatch page selectors = none →
        (∀ p ∈ page.pageParagraphs, p.length ≤ 20) →
        scrape_article_body http url = "(本文の取得に失敗しました)") := by
  constructor
  · cases hh : http url with
    | error e =>
      rw [scrape_article_body, hh]
      exact str_append_ne_right _ _ (by decide)
    | ok page =>
      have hval : scrape_article_body http url = scrapePage page := by
        rw [scrape_article_body, hh]
      rw [hval, scrapePage]
      by_cases hb : truncateBody (rawBody page) = ""
      · rw [if_pos hb]; decide
      · rw [if_neg hb]; exact hb
  · intro page hp hnone hshort
    have hval : scrape_article_body http url = scrapePage page := by
      rw [scrape_article_body, hp]
    rw [hval, scrapePage]
    have hsel : selectorBody page = "" := by rw [selectorBody, hnone]
    have hfil : page.pageParagraphs.filter (fun p => 20 < p.length) = [] := by
      rw [List.filter_eq_nil_iff]
      intro a ha
      simp only [decide_eq_true_eq]
      exact Nat.not_lt.mpr (hshort a ha)
    have hfb : fallbackBody page = "" := by
      rw [fallbackBody, hfil]
      rfl
    have hraw : rawBody page = "" := by
      rw [rawBody, if_pos hsel]
      exact hfb
    rw [hraw, truncateBody_empty, if_pos rfl]

/-- Witness for C3: a page with no matching selector and no paragraphs
yields the no-body-found sentinel. -/
theorem scrape_article_body_total_witness :
    firstMatch emptyPage selectors = none
    ∧ scrape_article_body (fun _ => Except.ok emptyPage) "http://x"
        = "(本文の取得に失敗しました)" :=
  ⟨rfl,
    (scrape_article_body_total (fun _ => Except.ok emptyPage) "http://x").2
      emptyPage rfl rfl (by intro p hp; simp [emptyPage] at hp)⟩

/-- C4 counterexample: the page-wide paragraph fallback is not confined
to pages where no selector matched.  Pages c4pageA and c4pageB agree on
the selector stage (the article selector matches the same empty
element on both), yet scrape_article_body returns different bodies,
because the matched element extracts to empty text and line 106 then
falls back to the page-wide paragraphs. -/
theorem scrape_selector_fallback_cex :
    (firstMatch c4pageA selectors).isSome = true
    ∧ firstMatch c4pageA selectors = firstMatch c4pageB selectors
    ∧ scrape_article_body (fun _ => Except.ok c4pageA) "http://x"
        ≠ scrape_article_body (fun _ => Except.ok c4pageB) "http://x" := by
  refine ⟨rfl, rfl, ?_⟩
  have hA : scrape_article_body (fun _ => Except.ok c4pageA) "http://x"
      = "aaaaaaaaaaaaaaaaaaaaaaaaa" := rfl
  have hB : scrape_article_body (fun _ => Except.ok c4pageB) "http://x"
      = "(本文の取得に失敗しました)" := rfl
  rw [hA, hB]
  decide

/-- C4 amended: the body delivered by the page branch is determined by
the selector stage alone exactly when that stage extracts nonempty
text; the page-wide paragraph fallback is used exactly when the
selector stage leaves body_text empty, which happens both when no
selector matches and when the first matching selector's element
extracts to empty text. -/
theorem scrape_selector_fallback_amended (page : Page) :
    (selectorBody page ≠ "" → scrapePage page = truncateBody (selectorBody page))
    ∧ (selectorBody page = "" →
        scrapePage page =
          (if fallbackBody page = "" then "(本文の取得に失敗しました)"
           else truncateBody (fallbackBody page))) := by
  constructor
  · intro h
    rw [scrapePage, rawBody, if_neg h, if_neg (truncateBody_ne_empty _ h)]
  · intro h
    rw [scrapePage, rawBody, if_pos h]
    by_cases hf : fallbackBody page = ""
    · rw [hf, truncateBody_empty, if_pos rfl]
    · rw [if_neg (truncateBody_ne_empty _ hf), if_neg hf]

/-- Witness for C4 amended: a page whose article selector extracts real
text is served from that selector alone. -/
theorem scrape_selector_fallback_witness :
    selectorBody c4pageC ≠ ""
    ∧ scrapePage c4pageC = truncateBody (selectorBody c4pageC) :=
  ⟨by decide, (scrape_selector_fallback_amended c4pageC).1 (by decide)⟩

/-- C6: whenever the extracted body text exceeds 2000 characters, the
page branch returns exactly its first 2000 characters followed by the
localized omitted marker; nonempty body text of at most 2000 characters
is returned untouched (empty body text is the sentinel case of C3). -/
theorem scrape_body_truncation (page : Page) :
    (2000 < (rawBody page).length →
      scrapePage page = (rawBody page).take 2000 ++ "...(以下省略)")
    ∧ ((rawBody page).length ≤ 2000 → rawBody page ≠ "" →
      scrapePage page = rawBody page) := by
  constructor
  · intro h
    have ht : truncateBody (rawBody page)
        = (rawBody page).take 2000 ++ "...(以下省略)" := by
      rw [truncateBody, if_pos h]
    rw [scrapePage, ht, if_neg (str_append_ne_right _ _ (by decide))]
  · intro hle hne
    have ht : truncateBody (rawBody page) = rawBody page := by
      rw [truncateBody, if_neg (Nat.not_lt.mpr hle)]
    rw [scrapePage, ht, if_neg hne]

/-- Witness for C6: a short body comes back untruncated. -/
theorem scrape_body_truncation_witness :
    (rawBody shortPage).length ≤ 2000
    ∧ rawBody shortPage ≠ ""
    ∧ scrapePage shortPage = rawBody shortPage :=
  ⟨by decide, by decide,
    (scrape_body_truncation shortPage).2 (by decide) (by decide)⟩

/-- C5: main truncates only the LINE delivery: a summary longer than
4900 characters reaches LINE as its first 4900 characters plus the
ellipsis marker, a shorter one unchanged, and the Docs append always
receives the untruncated original. -/
theorem main_delivery_truncation (s : String) :
    (4900 < s.length → (main_messages s).1 = s.take 4900 ++ "...")
    ∧ (s.length ≤ 4900 → (main_messages s).1 = s)
    ∧ (main_messages s).2 = s := by
  refine ⟨?_, ?_, rfl⟩
  · intro h
    show line_summary_of s = _
    rw [line_summary_of, if_pos h]
  · intro h
    show line_summary_of s = _
    rw [line_summary_of, if_neg (Nat.not_lt.mpr h)]

/-- Witness for C5 at a 4901-character summary. -/
theorem main_delivery_truncation_witness :
    4900 < bigSummary.length
    ∧ (main_messages bigSummary).1 = bigSummary.take 4900 ++ "..." := by
  have h : 4900 < bigSummary.length := by
    show 4900 < (List.replicate 4901 'a').length
    rw [List.length_replicate]
    omega
  exact ⟨h, (main_delivery_truncation bigSummary).1 h⟩

/-- C7: for the empty news list, summarize_news returns the canned
no-news message without invoking the generative collaborator, whatever
the API key, and in particular never the missing-key error string. -/
theorem summarize_empty_news (apiKey : Option String)
    (gen : String → Except String String) :
    summarize_news apiKey gen []
      = ("本日のAI関連ニュースはありませんでした。", false)
    ∧ (summarize_news apiKey gen []).1
      ≠ "エラー: GEMINI_API_KEYが設定されていません。" := by
  have h1 : summarize_news apiKey gen []
      = ("本日のAI関連ニュースはありませんでした。", false) := rfl
  refine ⟨h1, ?_⟩
  rw [h1]
  decide

/-- C9: fetch_article_bodies returns a list of the same length and
order where every record keeps its title, link, summary and source and
gains a body, namely the scrape of its link. -/
theorem fetch_article_bodies_frame (http : String → Except String Page)
    (news_list : List Record) :
    (fetch_article_bodies http news_list).length = news_list.length
    ∧ ∀ i : Nat,
      ((fetch_article_bodies http news_list)[i]?).map Record.title
          = (news_list[i]?).map Record.title
      ∧ ((fetch_article_bodies http news_list)[i]?).map Record.link
          = (news_list[i]?).map Record.link
      ∧ ((fetch_article_bodies http news_list)[i]?).map Record.summary
          = (news_list[i]?).map Record.summary
      ∧ ((fetch_article_bodies http news_list)[i]?).map Record.source
          = (news_list[i]?).map Record.source
      ∧ ((fetch_article_bodies http news_list)[i]?).map Record.body
          = (news_list[i]?).map (fun n => some (scrape_article_body http n.link)) := by
  constructor
  · rw [fetch_article_bodies, List.length_map]
  · intro i
    rw [fetch_article_bodies, List.getElem?_map]
    cases news_list[i]? with
    | none => simp
    | some n => simp

/-- C10: for a nonempty news list, a falsy Gemini key yields the fixed
missing-key error string with no collaborator call; with a truthy key
the collaborator is called, its text returned verbatim on success, and
the summarization-failure string carrying the exception text is
produced exactly when that call raises. -/
theorem summarize_missing_key (apiKey : Option String)
    (gen : String → Except String String) (news_list : List Record)
    (hne : news_list ≠ []) :
    (keyTruthy apiKey = false →
      summarize_news apiKey gen news_list
        = ("エラー: GEMINI_API_KEYが設定されていません。", false))
    ∧ (keyTruthy apiKey = true →
        (∀ t, gen (buildPrompt news_list) = Except.ok t →
          summarize_news apiKey gen news_list = (t, true))
        ∧ (∀ e, gen (buildPrompt news_list) = Except.error e →
          summarize_news apiKey gen news_list
            = ("要約中にエラーが発生しました: " ++ e, true))) := by
  have hempty : news_list.isEmpty = false := by
    cases news_list with
    | nil => exact absurd rfl hne
    | cons a l => rfl
  constructor
  · intro hk
    simp [summarize_news, hempty, hk]
  · intro hk
    constructor
    · intro t hgen
      simp [summarize_news, hempty, hk, hgen]
    · intro e hgen
      simp [summarize_news, hempty, hk, hgen]

/-- Witness for C10: one record, absent key, never-called oracle. -/
theorem summarize_missing_key_witness :
    [demoRecord] ≠ ([] : List Record)
    ∧ keyTruthy none = false
    ∧ summarize_news none (fun _ => Except.ok "OK") [demoRecord]
        = ("エラー: GEMINI_API_KEYが設定されていません。", false) :=
  ⟨by decide, rfl,
    (summarize_missing_key none (fun _ => Except.ok "OK") [demoRecord]
      (by decide)).1 rfl⟩
